import Mathlib

/-
Shallow embedding of src/main.rs (an axum SSE synthetic-data server).

The embedded pieces are:
  * the generator registry STRING_SUBSTITUTIONS (its key set; the random
    generator bodies are modelled by an abstract parameter g : String → String
    giving the value a generator produces when invoked),
  * fill_string: the placeholder scanner over a string,
  * fill_object_fields: the recursive transform over a JSON object,
  * SSEQuery validation (validator range attributes),
  * the sse streaming loop body (one iteration per emitted event).

Rust strings are UTF-8; the source enumerates *chars* but slices the string
with those char indices used as *byte* offsets.  We therefore model a string
as its list of chars plus the exact byte-offset arithmetic: byteSlice models
Rust `&s[a..b]`, returning none exactly when Rust would panic (an offset out
of range, reversed, or not on a char boundary).  Throughout, `none` models a
Rust panic / thread abort on the corresponding path.
-/

namespace SSEProto

/-- The JSON value model of serde_json::Value.  Numbers are modelled as Int
since the code only ever clones them verbatim; Map<String, Value> is modelled
as an association list in iteration order. -/
inductive Value where
  | null : Value
  | bool (b : Bool) : Value
  | num (n : Int) : Value
  | str (s : String) : Value
  | arr (elems : List Value) : Value
  | obj (fields : List (String × Value)) : Value

/-- The open-brace character (0x7b), written by code point. -/
def lbrace : Char := Char.ofNat 123

/-- The close-brace character (0x7d), written by code point. -/
def rbrace : Char := Char.ofNat 125

/-- The backslash character (0x5c), written by code point. -/
def bslash : Char := Char.ofNat 92

/-- Rust `str` byte-slicing helper: consume exactly `n` bytes worth of leading
chars; none when `n` falls strictly inside a char's UTF-8 encoding or past the
end (Rust: not a char boundary / out of range, a panic). -/
def dropBytes : List Char → Nat → Option (List Char)
  | cs, 0 => some cs
  | [], Nat.succ _ => none
  | c :: cs, Nat.succ n =>
    if c.utf8Size ≤ n + 1 then dropBytes cs (n + 1 - c.utf8Size) else none

/-- Rust `str` byte-slicing helper: take exactly `n` bytes worth of leading
chars; none when `n` is not a char boundary of the list or exceeds it. -/
def takeBytes : List Char → Nat → Option (List Char)
  | _, 0 => some []
  | [], Nat.succ _ => none
  | c :: cs, Nat.succ n =>
    if c.utf8Size ≤ n + 1 then (takeBytes cs (n + 1 - c.utf8Size)).map (fun t => c :: t)
    else none

/-- Rust `&s[a..b]` on a string with char list `cs`: byte offsets `a`, `b`.
`none` models the Rust slicing panic (reversed range, out of range, or an
offset that is not a char boundary). -/
def byteSlice (cs : List Char) (a b : Nat) : Option (List Char) :=
  if a ≤ b then (dropBytes cs a).bind (fun t => takeBytes t (b - a)) else none

/-- The fifteen keys inserted into STRING_SUBSTITUTIONS at startup
(src/main.rs lines 42-58), in source order. -/
def STRING_SUBSTITUTIONS_keys : List String :=
  ["address", "bool", "city", "color", "creditcard", "datetime", "email", "ip", "name",
   "number", "paragraph", "phone", "uuid", "words", "zip"]

/-- STRING_SUBSTITUTIONS.get(key) followed by invoking the boxed generator:
some (g key) when the key is registered, none otherwise.  The abstract
parameter g stands for the random value the generator returns on this call. -/
def STRING_SUBSTITUTIONS_get (g : String → String) (key : String) : Option String :=
  if key ∈ STRING_SUBSTITUTIONS_keys then some (g key) else none

/-- The mutable locals of fill_string's scan loop: `result`, `is_placeholder`
and `placeholder_start` (src/main.rs lines 62-65). -/
structure FillState where
  result : List Char
  is_placeholder : Bool
  placeholder_start : Nat

/-- One iteration of fill_string's for-loop (src/main.rs lines 67-90) at char
`c` with char index `char_index`; `cs` is the whole subject string (sliced by
byte offsets on the close-brace path).  `none` models the slicing panic. -/
def fillStep (g : String → String) (cs : List Char) (st : FillState)
    (char_index : Nat) (c : Char) : Option FillState :=
  if c = bslash then some st
  else if c = lbrace then some (FillState.mk st.result true (char_index + 1))
  else if st.is_placeholder then
    if c = rbrace then
      match byteSlice cs st.placeholder_start char_index with
      | none => none
      | some key =>
        match STRING_SUBSTITUTIONS_get g (String.mk key) with
        | some replacement => some (FillState.mk (st.result ++ replacement.data) false 0)
        | none => some st
    else some st
  else some (FillState.mk (st.result ++ [c]) st.is_placeholder st.placeholder_start)

/-- fill_string's for-loop over the remaining chars, threading the running
char index and the scan state. -/
def fillLoop (g : String → String) (cs : List Char) :
    Nat → List Char → FillState → Option FillState
  | _, [], st => some st
  | i, c :: rest, st =>
    match fillStep g cs st i c with
    | none => none
    | some st' => fillLoop g cs (i + 1) rest st'

/-- fill_string (src/main.rs lines 61-93): scan the subject string and return
Value::String(result); none models a panic during the scan. -/
def fill_string (g : String → String) (subject_string : String) : Option Value :=
  match fillLoop g subject_string.data 0 subject_string.data (FillState.mk [] false 0) with
  | none => none
  | some st => some (Value.str (String.mk st.result))

mutual

/-- The body of the closure mapped over the object's entries in
fill_object_fields (src/main.rs lines 98-105): objects recurse, strings go
through fill_string, anything else is cloned. -/
def fillField (g : String → String) (key : String) (value : Value) :
    Option (String × Value) :=
  match value with
  | Value.obj object => (fill_object_fields g object).map (fun o => (key, Value.obj o))
  | Value.str subject_string => (fill_string g subject_string).map (fun w => (key, w))
  | v => some (key, v)

/-- fill_object_fields (src/main.rs lines 95-108): map fillField over the
entries and collect; none propagates a panic from fill_string. -/
def fill_object_fields (g : String → String) (object : List (String × Value)) :
    Option (List (String × Value)) :=
  match object with
  | [] => some []
  | (key, value) :: rest =>
    match fillField g key value, fill_object_fields g rest with
    | some e, some rest' => some (e :: rest')
    | _, _ => none

end

/-- Value::as_object: some of the field list for an object, none otherwise. -/
def Value.asObject : Value → Option (List (String × Value))
  | Value.obj fields => some fields
  | _ => none

/-- The query parameters of the sse endpoint (src/main.rs lines 110-117);
interval_min and interval_max are u64 (only compared, so Nat is faithful). -/
structure SSEQuery where
  interval_min : Nat
  interval_max : Nat
  shape : String

/-- The validator derive on SSEQuery: range(min = 1000) on interval_min and
range(min = 2000) on interval_max; no cross-field constraint. -/
def validateSSEQuery (q : SSEQuery) : Bool :=
  decide (1000 ≤ q.interval_min) && decide (2000 ≤ q.interval_max)

/-- rand gen_range(lo..hi) on a half-open integer range, with r the raw
randomness: some value in [lo, hi) when the range is nonempty, none when it is
empty (Rust: gen_range panics on an empty range). -/
def gen_range (lo hi r : Nat) : Option Nat :=
  if lo < hi then some (lo + r % (hi - lo)) else none

/-- One iteration of the sse stream loop (src/main.rs lines 124-137): draw the
delay, (sleep,) parse shape, unwrap, as_object, unwrap, fill the object.  The
parse of the shape string is abstract (serde_json is outside this repo);
`none` models the panics of gen_range on an empty range and of the two
unwraps, and a panic inside fill_object_fields. -/
def sseIteration (parse : String → Option Value) (g : String → String)
    (q : SSEQuery) (r : Nat) : Option (List (String × Value)) :=
  match gen_range q.interval_min q.interval_max r with
  | none => none
  | some _delay =>
    match parse q.shape with
    | none => none
    | some shape =>
      match Value.asObject shape with
      | none => none
      | some object => fill_object_fields g object

/-- The sse stream as a sequence of emissions: the loop body owns no state
across iterations (the closure captures only river_query), so emission n is
the whole iteration run afresh — in particular parse is re-applied to the
shape string on every emission.  rands n is the randomness of tick n and g
the generator outputs during tick n. -/
def sseSession (parse : String → Option Value) (g : String → String)
    (q : SSEQuery) (rands : Nat → Nat) (n : Nat) : Option (List (String × Value)) :=
  sseIteration parse g q (rands n)

/-- get_available_substitutions (src/main.rs lines 143-149): the key set of
STRING_SUBSTITUTIONS as a JSON array. -/
def get_available_substitutions : List String := STRING_SUBSTITUTIONS_keys

/-- The key set the claim enumerates, written from the claim's words, to be
compared with the registry built from the source. -/
def claimed_substitution_keys : List String :=
  ["address", "bool", "city", "color", "creditcard", "datetime", "email", "ip", "name",
   "number", "paragraph", "phone", "uuid", "words", "zip"]

/-- Relation between an input object entry and the corresponding output entry
of fill_object_fields: the key is preserved; an object value is replaced by
the recursive fill of its fields, a string value by its fill_string result,
and every other value (numbers, booleans, null, arrays) is returned
unchanged. -/
def fillEntryRel (g : String → String) (e e' : String × Value) : Prop :=
  e'.1 = e.1 ∧
  match e.2 with
  | Value.obj sub => ∃ sub', fill_object_fields g sub = some sub' ∧ e'.2 = Value.obj sub'
  | Value.str s => ∃ w, fill_string g s = some w ∧ e'.2 = w
  | v => e'.2 = v

/-- A constant generator assignment, used to instantiate theorems about the
filler on concrete inputs. -/
def gConst : String → String := fun _ => "G"

/-- A concrete template object exercising every Value shape: a nested object
with a placeholder string, a number, a boolean, null, and an array whose
element is itself a placeholder string. -/
def exampleFields : List (String × Value) :=
  [("a", Value.obj [("b", Value.str "x \x7buuid\x7d")]), ("n", Value.num 42),
   ("t", Value.bool true), ("z", Value.null), ("l", Value.arr [Value.str "\x7buuid\x7d"])]

/-- The result of filling exampleFields with gConst: the nested string is
substituted, everything else — including the array element that looks like a
placeholder — is untouched. -/
def exampleFilled : List (String × Value) :=
  [("a", Value.obj [("b", Value.str "x G")]), ("n", Value.num 42),
   ("t", Value.bool true), ("z", Value.null), ("l", Value.arr [Value.str "\x7buuid\x7d"])]

/-- Invariant of the scan loop on text with no brace and no backslash chars:
ordinary characters are copied verbatim and the state flags never change. -/
theorem fillLoop_no_special (g : String → String) (cs : List Char) (rest : List Char)
    (h : ∀ c ∈ rest, c ≠ lbrace ∧ c ≠ rbrace ∧ c ≠ bslash) :
    ∀ (i : Nat) (acc : List Char) (ps : Nat),
      fillLoop g cs i rest (FillState.mk acc false ps) =
        some (FillState.mk (acc ++ rest) false ps) := by
  induction rest with
  | nil => intro i acc ps; simp [fillLoop]
  | cons c rest ih =>
    intro i acc ps
    obtain ⟨h1, h2, h3⟩ := h c (by simp)
    have hrest : ∀ c ∈ rest, c ≠ lbrace ∧ c ≠ rbrace ∧ c ≠ bslash :=
      fun d hd => h d (by simp [hd])
    simp only [fillLoop, fillStep, if_neg h3, if_neg h1]
    simp only [Bool.false_eq_true, if_false]
    rw [ih hrest (i + 1) (acc ++ [c]) ps]
    simp

end SSEProto

namespace SSEProto

/-- C1 counterexample: on the exact input "\x7bliteral\x7d with escaped
braces", fill_string yields the empty string, not "literal", whatever values
the generators produce would not matter since no lookup succeeds. -/
theorem escaped_literal_counterexample :
    fill_string (fun _ => "gen") "\\\x7bliteral\\\x7d" = some (Value.str "") ∧
      ("" : String) ≠ "literal" :=
  ⟨rfl, by decide⟩

/-- C1 (amended): a backslash deletes only itself and does not suppress the
handling of the following character; the open brace after the first backslash
therefore still enters placeholder mode, the enclosed text is swallowed as
key text, the lookup of "literal\" fails, and fill returns "". -/
theorem escaped_literal_swallowed (g : String → String) :
    fill_string g "\\\x7bliteral\\\x7d" = some (Value.str "") := rfl

/-- C2: the scanner runs over char indices but slices the subject string at
those indices taken as byte offsets; on "\x7baé\x7d" the closing-brace
offset falls inside the two-byte encoding of the accented char and the Rust
slice panics — modelled here by fill_string returning none on this input. -/
theorem fill_string_multibyte_panics :
    fill_string (fun _ => "") "\x7baé\x7d" = none := rfl

/-- C3 counterexample: the request with interval_min = 1000 and
interval_max = 999 is rejected by validation (the claim says it is
accepted), because the interval_max floor in the source is 2000. -/
theorem interval_max_999_rejected :
    validateSSEQuery (SSEQuery.mk 1000 999 "") = false := rfl

/-- C3 (amended): validation rejects interval_min = 500 for every
interval_max and shape; it also rejects interval_min = 1000 with
interval_max = 999, because interval_max has floor 2000 (not 1000); no
cross-field ordering is enforced — interval_min = 5000 with
interval_max = 2000 passes. -/
theorem validation_floors :
    (∀ (mx : Nat) (s : String), validateSSEQuery (SSEQuery.mk 500 mx s) = false) ∧
      validateSSEQuery (SSEQuery.mk 1000 999 "") = false ∧
      validateSSEQuery (SSEQuery.mk 5000 2000 "") = true := by
  refine ⟨fun mx s => ?_, rfl, rfl⟩
  show (decide (1000 ≤ 500) && decide (2000 ≤ mx)) = false
  rw [show (decide (1000 ≤ 500)) = false from rfl, Bool.false_and]

/-- C4: when the scanner is inside a placeholder and reads a close brace
whose recorded key is absent from the registry, the step leaves the state
unchanged — the close brace is dropped, the scanner stays inside the
placeholder and the start offset is not reset; consequently fill_string on
"\x7bunknownkey\x7d" returns the empty string and no error. -/
theorem unknown_key_keeps_placeholder (g : String → String) (cs : List Char)
    (st : FillState) (i : Nat) (key : List Char)
    (hp : st.is_placeholder = true)
    (hs : byteSlice cs st.placeholder_start i = some key)
    (hk : String.mk key ∉ STRING_SUBSTITUTIONS_keys) :
    fillStep g cs st i rbrace = some st ∧
      fill_string g "\x7bunknownkey\x7d" = some (Value.str "") := by
  refine ⟨?_, rfl⟩
  unfold fillStep
  rw [if_neg (show ¬ rbrace = bslash from by decide),
      if_neg (show ¬ rbrace = lbrace from by decide), hp, hs]
  simp only [if_true]
  have hget : STRING_SUBSTITUTIONS_get g (String.mk key) = none := by
    unfold STRING_SUBSTITUTIONS_get
    exact if_neg hk
  rw [hget]

theorem unknown_key_keeps_placeholder_witness :
    fillStep (fun _ => "") ("\x7bunknownkey\x7d".data) (FillState.mk [] true 1) 11 rbrace
        = some (FillState.mk [] true 1) ∧
      fill_string (fun _ => "") "\x7bunknownkey\x7d" = some (Value.str "") :=
  unknown_key_keeps_placeholder (fun _ => "") ("\x7bunknownkey\x7d".data)
    (FillState.mk [] true 1) 11 ("unknownkey".data) rfl (by decide) (by decide)

/-- C5 counterexample: "a\b" contains no brace, yet fill_string removes the
backslash and returns "ab", so fill is not the identity on all
placeholder-free strings. -/
theorem backslash_removed_counterexample :
    fill_string (fun _ => "") "a\\b" = some (Value.str "ab") ∧
      ("ab" : String) ≠ "a\\b" :=
  ⟨rfl, by decide⟩

/-- C5 (amended): fill_string is the identity on every string containing no
open brace, no close brace and additionally no backslash (backslashes are
deleted even outside placeholders, so brace-freedom alone is not enough). -/
theorem fill_identity_no_special (g : String → String) (s : String)
    (h : ∀ c ∈ s.data, c ≠ lbrace ∧ c ≠ rbrace ∧ c ≠ bslash) :
    fill_string g s = some (Value.str s) := by
  unfold fill_string
  rw [fillLoop_no_special g s.data s.data h 0 [] 0]
  simp

theorem fill_identity_no_special_witness :
    (∀ c ∈ ("hello world" : String).data, c ≠ lbrace ∧ c ≠ rbrace ∧ c ≠ bslash) ∧
      fill_string (fun _ => "") "hello world" = some (Value.str "hello world") :=
  ⟨by decide, fill_identity_no_special (fun _ => "") "hello world" (by decide)⟩

end SSEProto

namespace SSEProto

/-- C6: whenever fill_object_fields returns, the output object has exactly
the keys of the input in the same order, and entrywise: nested objects are
filled recursively, string values go through fill_string, and every other
value — numbers, booleans, null, and arrays (so no recursion into array
elements, even string or object elements) — is returned unchanged. -/
theorem fill_object_fields_shape (g : String → String)
    (fs fs' : List (String × Value))
    (h : fill_object_fields g fs = some fs') :
    fs'.map Prod.fst = fs.map Prod.fst ∧ List.Forall₂ (fillEntryRel g) fs fs' := by
  induction fs generalizing fs' with
  | nil =>
    unfold fill_object_fields at h
    simp only [Option.some.injEq] at h
    subst h
    exact ⟨rfl, List.Forall₂.nil⟩
  | cons head rest ih =>
    obtain ⟨k, v⟩ := head
    unfold fill_object_fields at h
    cases hf : fillField g k v with
    | none => rw [hf] at h; cases h
    | some e =>
      cases hr : fill_object_fields g rest with
      | none => rw [hf, hr] at h; cases h
      | some rest' =>
        rw [hf, hr] at h
        simp only [Option.some.injEq] at h
        subst h
        obtain ⟨hkeys, hrel⟩ := ih rest' hr
        have hkv : e.1 = k ∧ fillEntryRel g (k, v) e := by
          unfold fillField at hf
          cases v with
          | obj sub =>
            simp only [Option.map_eq_some'] at hf
            obtain ⟨sub', hsub, hback⟩ := hf
            subst hback
            exact ⟨rfl, rfl, sub', hsub, rfl⟩
          | str s =>
            simp only [Option.map_eq_some'] at hf
            obtain ⟨w, hw, hback⟩ := hf
            subst hback
            exact ⟨rfl, rfl, w, hw, rfl⟩
          | null => simp only [Option.some.injEq] at hf; subst hf; exact ⟨rfl, rfl, rfl⟩
          | bool b => simp only [Option.some.injEq] at hf; subst hf; exact ⟨rfl, rfl, rfl⟩
          | num n => simp only [Option.some.injEq] at hf; subst hf; exact ⟨rfl, rfl, rfl⟩
          | arr a => simp only [Option.some.injEq] at hf; subst hf; exact ⟨rfl, rfl, rfl⟩
        refine ⟨?_, List.Forall₂.cons hkv.2 hrel⟩
        simp [hkv.1, hkeys]

theorem fill_object_fields_shape_witness :
    fill_object_fields gConst exampleFields = some exampleFilled ∧
      (exampleFilled.map Prod.fst = exampleFields.map Prod.fst ∧
        List.Forall₂ (fillEntryRel gConst) exampleFields exampleFilled) :=
  ⟨rfl, fill_object_fields_shape gConst exampleFields exampleFilled rfl⟩

/-- C7: when interval_min equals interval_max the delay range is empty, so
the very first thing the loop iteration does — gen_range — faults, and the
whole iteration aborts (none, modelling the Rust panic that kills the
session); and validation does not preclude this case, since the query with
interval_min = interval_max = 2000 passes validation. -/
theorem empty_interval_first_tick_faults (parse : String → Option Value)
    (g : String → String) (q : SSEQuery) (r : Nat)
    (h : q.interval_min = q.interval_max) :
    sseIteration parse g q r = none ∧
      validateSSEQuery (SSEQuery.mk 2000 2000 "") = true := by
  refine ⟨?_, rfl⟩
  unfold sseIteration gen_range
  rw [h]
  simp

theorem empty_interval_first_tick_faults_witness :
    sseIteration (fun _ => none) (fun _ => "") (SSEQuery.mk 2000 2000 "") 7 = none ∧
      validateSSEQuery (SSEQuery.mk 2000 2000 "") = true :=
  empty_interval_first_tick_faults (fun _ => none) (fun _ => "")
    (SSEQuery.mk 2000 2000 "") 7 rfl

/-- C8 counterexample: fill_string on "a\x7db" returns "a\x7db" itself — the
stray close brace is copied to the output, not dropped, so the output does
contain a close brace. -/
theorem stray_rbrace_counterexample :
    fill_string (fun _ => "") "a\x7db" = some (Value.str "a\x7db") ∧
      rbrace ∈ ("a\x7db" : String).data :=
  ⟨rfl, by decide⟩

/-- C8 (amended): a close brace read while the scanner is outside any
placeholder is copied verbatim to the output like any ordinary character
(and raises no error); hence fill_string "a\x7db" = "a\x7db". -/
theorem stray_rbrace_copied (g : String → String) (cs : List Char)
    (st : FillState) (i : Nat) (h : st.is_placeholder = false) :
    fillStep g cs st i rbrace =
      some (FillState.mk (st.result ++ [rbrace]) st.is_placeholder st.placeholder_start) ∧
      fill_string g "a\x7db" = some (Value.str "a\x7db") := by
  refine ⟨?_, rfl⟩
  unfold fillStep
  rw [if_neg (show ¬ rbrace = bslash from by decide),
      if_neg (show ¬ rbrace = lbrace from by decide), h]
  simp

theorem stray_rbrace_copied_witness :
    fillStep (fun _ => "") [] (FillState.mk [] false 0) 0 rbrace =
        some (FillState.mk ([] ++ [rbrace]) false 0) ∧
      fill_string (fun _ => "") "a\x7db" = some (Value.str "a\x7db") :=
  stray_rbrace_copied (fun _ => "") [] (FillState.mk [] false 0) 0 rfl

/-- C9: the stream loop holds no parsed template across iterations — each
emission re-runs the iteration, which re-applies parse to the shape string —
so if the shape fails to parse, or parses to a non-object root, then every
single emission tick is fatal (none, modelling the unwrap panic that aborts
the session rather than recovering). -/
theorem shape_parse_failure_fatal_every_tick (parse : String → Option Value)
    (g : String → String) (q : SSEQuery) (rands : Nat → Nat) (n : Nat)
    (h : parse q.shape = none ∨
      ∃ v, parse q.shape = some v ∧ Value.asObject v = none) :
    sseSession parse g q rands n = none := by
  unfold sseSession sseIteration
  cases hg : gen_range q.interval_min q.interval_max (rands n) with
  | none => rfl
  | some d =>
    rcases h with h | ⟨v, hv, ho⟩
    · rw [h]
    · simp only [hv, ho]

theorem shape_parse_failure_fatal_every_tick_witness :
    sseSession (fun _ => none) (fun _ => "") (SSEQuery.mk 1000 2000 "not json")
      (fun _ => 0) 3 = none :=
  shape_parse_failure_fatal_every_tick (fun _ => none) (fun _ => "")
    (SSEQuery.mk 1000 2000 "not json") (fun _ => 0) 3 (Or.inl rfl)

/-- C10: the introspection endpoint returns exactly the fifteen claimed keys,
and a registry lookup finds a generator exactly when the key is one of the
fifteen. -/
theorem substitution_keys_exact (g : String → String) (k : String) :
    get_available_substitutions = claimed_substitution_keys ∧
      ((STRING_SUBSTITUTIONS_get g k).isSome = true ↔
        k ∈ claimed_substitution_keys) := by
  refine ⟨rfl, ?_⟩
  constructor
  · intro hsome
    by_contra hmem
    have hnone : STRING_SUBSTITUTIONS_get g k = none := by
      unfold STRING_SUBSTITUTIONS_get
      exact if_neg hmem
    rw [hnone] at hsome
    simp at hsome
  · intro hmem
    have hsome : STRING_SUBSTITUTIONS_get g k = some (g k) := by
      unfold STRING_SUBSTITUTIONS_get
      exact if_pos hmem
    rw [hsome]
    rfl

end SSEProto
